import Mathlib

/-
Verification of the two core functions of `apps/mail/lib/utils.ts`:

  * `convertJSONToHTML` (the spec's `render`, utils.ts lines 163-247): the
    recursive rich-text-document-to-HTML renderer, and
  * `createAIJsonContent` (the spec's `splitSignature`, utils.ts lines
    249-353): the heuristic body/signature splitter producing the document
    model consumed by the renderer.

Modelling conventions:
  * JavaScript values reachable by these functions are embedded as `JVal`
    (null, undefined, strings, numbers, booleans, arrays, objects with
    ordered own-property lists).  Numbers are modelled as `Int`: every
    number appearing in this code path is integral and JS integer
    `toString` is plain decimal notation.
  * `convertJSONToHTML` returns `Option String`; `none` models a thrown
    exception.  The single throwing site in the source is
    `json.type?.startsWith('heading-')` (line 197): optional chaining only
    guards `null`/`undefined`, so a non-nullish non-string `type` raises
    `TypeError: json.type.startsWith is not a function`.
  * String indices are code points.  All inputs exercised are ASCII, where
    JS UTF-16 indices and code-point indices agree.
-/

/-- A JavaScript value, as far as `convertJSONToHTML` inspects its input.
Object fields are kept in insertion order (the enumeration order of
`Object.values` for the non-integer keys used here); duplicate keys cannot
arise in a JS object literal, and lookups take the first occurrence. -/
inductive JVal where
  | null
  | undefined
  | str (s : String)
  | num (n : Int)
  | bool (b : Bool)
  | arr (xs : List JVal)
  | obj (fields : List (String × JVal))

/-- JS truthiness (`Boolean(v)`): `null`, `undefined`, `false`, `0`, and
`""` are falsy; every array and object is truthy.  (`NaN`, the remaining
falsy value, does not exist in the `Int` model.) -/
def jsTruthy : JVal → Bool
  | .null => false
  | .undefined => false
  | .str s => s != ""
  | .num n => n != 0
  | .bool b => b
  | .arr _ => true
  | .obj _ => true

/-- Property lookup `obj[key]`: `undefined` when the key is absent. -/
def getField : List (String × JVal) → String → JVal
  | [], _ => .undefined
  | (k, v) :: rest, key => if k == key then v else getField rest key

mutual

/-- JS `String(v)` as performed by template-literal interpolation:
strings pass through, integers print in decimal, `null`/`undefined`
print their names, arrays re-enter `Array.prototype.toString` (comma
join with `null`/`undefined` elements becoming empty), plain objects
print `"[object Object]"`. -/
def jsToString : JVal → String
  | .null => "null"
  | .undefined => "undefined"
  | .str s => s
  | .num n => toString n
  | .bool b => cond b "true" "false"
  | .arr xs => jsArrToString xs
  | .obj _ => "[object Object]"

/-- `Array.prototype.join(',')` as used by `String(array)`. -/
def jsArrToString : List JVal → String
  | [] => ""
  | [x] => jsElemToString x
  | x :: rest => jsElemToString x ++ "," ++ jsArrToString rest

/-- One element under `Array.prototype.join`: `null` and `undefined`
become the empty string, everything else stringifies as usual. -/
def jsElemToString : JVal → String
  | .null => ""
  | .undefined => ""
  | .str s => s
  | .num n => toString n
  | .bool b => cond b "true" "false"
  | .arr xs => jsArrToString xs
  | .obj _ => "[object Object]"

end

/-- JS `String.prototype.startsWith`, evaluated over the code-point list. -/
def strStartsWith (s pre : String) : Bool := pre.data.isPrefixOf s.data

/-- JS `String.prototype.split('-')` (every `'-'` is a separator). -/
def splitAllCharAux (sep : Char) : List Char → List Char → List String
  | [], acc => [⟨acc.reverse⟩]
  | c :: rest, acc =>
    if c == sep then ⟨acc.reverse⟩ :: splitAllCharAux sep rest []
    else splitAllCharAux sep rest (c :: acc)

/-- JS `s.split(sep)` for a single-character separator string. -/
def splitAllChar (sep : Char) (s : String) : List String :=
  splitAllCharAux sep s.data []

mutual

/-- Embedding of `convertJSONToHTML` (utils.ts lines 163-247), the spec's
`render`.  `some` is a normal return, `none` a thrown `TypeError`.

Source correspondence, in source order:
  * line 164 `if (!json) return ''` — the not-truthy guard (hence `0`,
    `false` and `""` all return `""`);
  * line 167 string / line 168 number-or-boolean `toString()` (reached
    only by truthy values);
  * line 169 `if (json === null)` is dead code after line 164;
  * lines 172-174 arrays: concatenation of recursive renders, a thrown
    exception in any element propagating;
  * lines 177-244 objects, dispatched on `json.type` — see the `.obj`
    branch below. -/
def convertJSONToHTML (j : JVal) : Option String :=
  if !jsTruthy j then some ""
  else
    match j with
    | .null => some ""
    | .undefined => some ""
    | .str s => some s
    | .num n => some (toString n)
    | .bool b => some (cond b "true" "false")
    | .arr xs => (convertArr xs).map String.join
    | .obj fs =>
      -- Lines 177-244.  `json.type === 'text'` etc. only succeed when the
      -- type is a string; `json.type?.startsWith('heading-')` (line 197)
      -- short-circuits to `undefined` only for nullish `type` and throws
      -- a TypeError for every other non-string `type` value.
      match getField fs "type" with
      | .str t =>
        if t == "text" then
          -- Lines 179-189: `let text = json.text || ''`, then each truthy
          -- flag wraps the accumulated string IN SOURCE ORDER, so a later
          -- flag's tag encloses an earlier one's.
          let t0 :=
            if jsTruthy (getField fs "text") then jsToString (getField fs "text") else ""
          let t1 := if jsTruthy (getField fs "bold") then "<strong>" ++ t0 ++ "</strong>" else t0
          let t2 := if jsTruthy (getField fs "italic") then "<em>" ++ t1 ++ "</em>" else t1
          let t3 := if jsTruthy (getField fs "underline") then "<u>" ++ t2 ++ "</u>" else t2
          let t4 := if jsTruthy (getField fs "code") then "<code>" ++ t3 ++ "</code>" else t3
          some t4
        else if t == "paragraph" then
          (childrenOf fs).map (fun c => "<p>" ++ c ++ "</p>")
        else if strStartsWith t "heading-" then
          -- Line 198: `const level = json.type.split('-')[1]`.
          let level := ((splitAllChar '-' t).drop 1).headD ""
          (childrenOf fs).map (fun c => "<h" ++ level ++ ">" ++ c ++ "</h" ++ level ++ ">")
        else if t == "bulleted-list" then
          (childrenOf fs).map (fun c => "<ul>" ++ c ++ "</ul>")
        else if t == "numbered-list" then
          (childrenOf fs).map (fun c => "<ol>" ++ c ++ "</ol>")
        else if t == "list-item" then
          (childrenOf fs).map (fun c => "<li>" ++ c ++ "</li>")
        else if t == "link" then
          (childrenOf fs).map (fun c =>
            "<a href=\"" ++ jsToString (getField fs "url") ++ "\">" ++ c ++ "</a>")
        else if t == "image" then
          some ("<img src=\"" ++ jsToString (getField fs "url") ++ "\" alt=\"" ++
            (if jsTruthy (getField fs "alt") then jsToString (getField fs "alt") else "") ++
            "\" />")
        else if t == "block-quote" then
          (childrenOf fs).map (fun c => "<blockquote>" ++ c ++ "</blockquote>")
        else if t == "code-block" then
          (childrenOf fs).map (fun c => "<pre><code>" ++ c ++ "</code></pre>")
        else
          -- Unrecognized string type: fall through to lines 236-243.
          if jsTruthy (getField fs "children") then childrenOf fs
          else (convertValues fs).map String.join
      | .null | .undefined =>
        -- Nullish type: line 197's optional chaining yields `undefined`,
        -- falsy, so control falls through to lines 236-243.
        if jsTruthy (getField fs "children") then childrenOf fs
        else (convertValues fs).map String.join
      | _ =>
        -- Line 197 throws: `json.type.startsWith is not a function`.
        none

/-- `convertJSONToHTML(json.children)`, fused with the lookup of the
`children` field so that the recursion stays structural; an absent field
is `undefined`, which renders to `""`. -/
def childrenOf : List (String × JVal) → Option String
  | [] => some ""
  | (k, v) :: rest => if k == "children" then convertJSONToHTML v else childrenOf rest

/-- Lines 172-174: `json.map(item => convertJSONToHTML(item))`, leftmost
exception first (JS `map` runs the callback left to right). -/
def convertArr : List JVal → Option (List String)
  | [] => some []
  | x :: rest => do
    let s ← convertJSONToHTML x
    let ss ← convertArr rest
    pure (s :: ss)

/-- Lines 241-243: `Object.values(json).map(convertJSONToHTML)`, own
property values in insertion order. -/
def convertValues : List (String × JVal) → Option (List String)
  | [] => some []
  | (_, v) :: rest => do
    let s ← convertJSONToHTML v
    let ss ← convertValues rest
    pure (s :: ss)

end

/-
The signature splitter `createAIJsonContent` (utils.ts lines 249-353).

Its single regex (line 252, flags `i`) is

  /\b((?:Best regards|Regards|Sincerely|Thanks|Thank you|Cheers|Best|All the best|Yours truly|Yours sincerely|Kind regards|Cordially)(?:,)?)\s*\n+\s*([A-Za-z][A-Za-z\s.]*)$/i

Because the pattern is anchored at `$` (which, without the `m` flag,
matches only at the very end of the input) and `[A-Za-z\s.]*` is the last
consuming token, EVERY match runs to the end of the text, so `match[0]`
is the suffix of the text starting at the match position, and
`text.lastIndexOf(match[0])` recovers exactly that position.  A match
exists at position i iff:
  * `\b`: i = 0 or the previous character is not a word character (the
    first matched character is a letter, hence a word character);
  * some sign-off phrase is a case-insensitive prefix of the text at i;
  * an optional single comma follows the phrase (`(?:,)?` backtracks
    to the no-comma parse only when the comma parse fails, and with a
    comma present the no-comma parse dies at the comma, so the comma is
    simply consumed when present);
  * `\s*\n+\s*`: the following maximal run of regex whitespace contains
    at least one '\n' (any split of the run into `\s*`/`\n+`/`\s*` parts
    consumes a prefix of the run, and `[A-Za-z]` then requires a
    non-whitespace character, forcing the whole run to be consumed);
  * `[A-Za-z][A-Za-z\s.]*$`: the character after that run is an ASCII
    letter and everything from it to the end of the text consists of
    ASCII letters, regex whitespace and periods.
Alternation order inside `(?:...)` affects only which alternative is
recorded, never the extent of `match[0]` (always the whole suffix), so an
unordered existence check over the phrase list is faithful.
`text.match(re)` without the `g` flag returns the leftmost match.
-/

/-- The character class of JS regex `\s` (also the set trimmed by
`String.prototype.trim`): ASCII whitespace, NBSP, BOM, and the Unicode
space separators and line terminators. -/
def isJsWs (c : Char) : Bool :=
  c == ' ' || (9 ≤ c.val && c.val ≤ 13) || c.val == 0xa0 || c.val == 0x1680 ||
  (0x2000 ≤ c.val && c.val ≤ 0x200a) || c.val == 0x2028 || c.val == 0x2029 ||
  c.val == 0x202f || c.val == 0x205f || c.val == 0x3000 || c.val == 0xfeff

/-- JS `String.prototype.trim`. -/
def jsTrim (s : String) : String :=
  ⟨((s.data.dropWhile isJsWs).reverse.dropWhile isJsWs).reverse⟩

/-- JS regex `\w` (word character): ASCII letter, digit, or underscore. -/
def isWordChar (c : Char) : Bool :=
  ('A' ≤ c && c ≤ 'Z') || ('a' ≤ c && c ≤ 'z') || ('0' ≤ c && c ≤ '9') || c == '_'

/-- ASCII letter, the class `[A-Za-z]`. -/
def isAsciiLetter (c : Char) : Bool :=
  ('A' ≤ c && c ≤ 'Z') || ('a' ≤ c && c ≤ 'z')

/-- The sign-off vocabulary of the line-252 regex, in source order. -/
def signOffPhrases : List String :=
  ["Best regards", "Regards", "Sincerely", "Thanks", "Thank you", "Cheers",
   "Best", "All the best", "Yours truly", "Yours sincerely", "Kind regards", "Cordially"]

/-- Case-insensitive prefix test (the regex `i` flag; all phrase and
subject characters here are ASCII, where JS case folding is `toLower`). -/
def ciStartsWith : List Char → List Char → Bool
  | [], _ => true
  | _ :: _, [] => false
  | p :: ps, c :: cs => (p.toLower == c.toLower) && ciStartsWith ps cs

/-- The regex tail `\s*\n+\s*([A-Za-z][A-Za-z\s.]*)$` applied to the text
remaining after the phrase and optional comma: the maximal whitespace run
must contain a newline, and the rest must be a letter followed only by
letters, whitespace and periods, through the end of the text. -/
def signOffTail (cs : List Char) : Bool :=
  let w := cs.takeWhile isJsWs
  let rest := cs.dropWhile isJsWs
  w.contains '\n' &&
    (match rest with
     | [] => false
     | r :: rs => isAsciiLetter r && rs.all (fun c => isAsciiLetter c || isJsWs c || c == '.'))

/-- One optional comma, the regex `(?:,)?`. -/
def skipComma : List Char → List Char
  | ',' :: rest => rest
  | cs => cs

/-- Does the line-252 regex match starting exactly at this suffix
(boundary condition checked by the caller)? -/
def signOffHere (cs : List Char) : Bool :=
  signOffPhrases.any (fun p =>
    ciStartsWith p.data cs && signOffTail (skipComma (cs.drop p.data.length)))

/-- Leftmost match position of the line-252 regex: scan every position,
carrying the previous character for the `\b` test. -/
def findSignOffAux : Option Char → List Char → Nat → Option Nat
  | prev, cs, i =>
    if (match prev with
        | none => true
        | some c => !isWordChar c) && signOffHere cs then
      some i
    else
      match cs with
      | [] => none
      | c :: rest => findSignOffAux (some c) rest (i + 1)

/-- `text.match(signOffPatterns[0])`, reduced to the position of the
(end-anchored) match: `some i` means `match[0] = text.substring(i)`. -/
def findSignOff (text : String) : Option Nat :=
  findSignOffAux none text.data 0

/-- JS `hay.lastIndexOf(needle)` (line 263), with `none` for -1. -/
def jsLastIndexOf (hay needle : List Char) : Option Nat :=
  ((List.range (hay.length + 1)).filter (fun k => needle.isPrefixOf (hay.drop k))).getLast?

/-- JS `text.split(/\n+/)`: each maximal run of newlines separates. -/
def splitNlAux : List Char → List Char → Bool → List String
  | [], acc, _ => [⟨acc.reverse⟩]
  | c :: rest, acc, inRun =>
    if c == '\n' then
      if inRun then splitNlAux rest acc true
      else ⟨acc.reverse⟩ :: splitNlAux rest [] true
    else splitNlAux rest (c :: acc) false

/-- `text.split(/\n+/)` (lines 271 and 282). -/
def splitNl (s : String) : List String :=
  splitNlAux s.data [] false

/-- Length of the `/\n\s*\n/` match starting at `cs`, or 0 if none: the
first character must be '\n' and the maximal whitespace run from it must
contain a second '\n'; greedy `\s*` extends the match to the run's last
newline. -/
def paraSepLen (cs : List Char) : Nat :=
  match cs with
  | '\n' :: _ =>
    let w := cs.takeWhile isJsWs
    let k := w.length - (w.reverse.takeWhile (fun c => c != '\n')).length
    if 2 ≤ k then k else 0
  | _ => 0

/-- Scanner for `mainContent.split(/\n\s*\n/)` (line 304).  The fuel is
the remaining length; every step consumes at least one character, so fuel
`s.length` never runs out. -/
def splitParaAux : Nat → List Char → List Char → List String
  | 0, cs, acc => [⟨acc.reverse ++ cs⟩]
  | fuel + 1, cs, acc =>
    match cs with
    | [] => [⟨acc.reverse⟩]
    | c :: rest =>
      let k := paraSepLen cs
      if k == 0 then splitParaAux fuel rest (c :: acc)
      else ⟨acc.reverse⟩ :: splitParaAux fuel (cs.drop k) []

/-- `mainContent.split(/\n\s*\n/)` (line 304). -/
def splitPara (s : String) : List String :=
  splitParaAux s.data.length s.data []

/-- A body paragraph / signature line node (lines 318-321 and 342-345):
note the children go under the key `content`, not `children`. -/
def paraNode (s : String) : JVal :=
  .obj [("type", .str "paragraph"),
        ("content", .arr [.obj [("type", .str "text"), ("text", .str s)]])]

/-- The empty spacer paragraph (lines 325-327 and 335-337). -/
def spacerNode : JVal :=
  .obj [("type", .str "paragraph")]

/-- Lines 259-277, the sign-off pattern pass of `createAIJsonContent`:
returns `(mainContent, signatureLines)`.  With a match at a positive
index the text is cut there; a match at index 0, or no match, leaves
`(text, [])` for the fallback pass.  (`signOffPatterns` holds a single
pattern, so the `for`/`break` loop runs it once.) -/
def patternPass (text : String) : String × List String :=
  match findSignOff text with
  | none => (text, [])
  | some i =>
    -- Line 263: `text.lastIndexOf(match[0])` with `match[0]` the suffix
    -- of `text` starting at the match position.
    match jsLastIndexOf text.data (text.data.drop i) with
    | none => (text, [])  -- unreachable: a suffix always occurs in its string
    | some signOffIndex =>
      if 0 < signOffIndex then
        ((jsTrim ⟨text.data.take signOffIndex⟩),
         ((splitNl (jsTrim ⟨text.data.drop signOffIndex⟩)).map jsTrim).filter
           (fun l => l != ""))
      else (text, [])

/-- The line-289 qualification test of the fallback pass: trimmed length
under 60 and the trimmed line ends with neither '?' nor '.'. -/
def sigLineQualifies (line : String) : Bool :=
  (jsTrim line).data.length < 60 &&
    !((jsTrim line).data.getLast? == some '?') &&
    !((jsTrim line).data.getLast? == some '.')

/-- Lines 281-300, the fallback pass: when the pattern pass produced no
signature lines, `filter` the last up-to-3 lines (`slice(-3)`) by
`sigLineQualifies`; if any survive they become the signature and the
first `n - k` lines, newline-joined and trimmed, the main content. -/
def fallbackPass (text : String) (acc : String × List String) : String × List String :=
  if acc.2.length == 0 then
    let allLines := splitNl text
    if 1 < allLines.length then
      let potentialSigLines := (allLines.drop (allLines.length - 3)).filter sigLineQualifies
      if 0 < potentialSigLines.length then
        (jsTrim (String.intercalate "\n" (allLines.take (allLines.length - potentialSigLines.length))),
         potentialSigLines)
      else acc
    else acc
  else acc

/-- Lines 255-300 together: the `(mainContent, signatureLines)` state
after both passes. -/
def splitSigParts (text : String) : String × List String :=
  fallbackPass text (patternPass text)

/-- Lines 303-306: main content split on `/\n\s*\n/`, trimmed, empties
dropped. -/
def mainParagraphs (mainContent : String) : List String :=
  ((splitPara mainContent).map jsTrim).filter (fun p => p != "")

/-- Lines 316-329: one paragraph node per body paragraph with an empty
spacer paragraph between consecutive ones. -/
def interleaveSpacers : List String → List JVal
  | [] => []
  | [p] => [paraNode p]
  | p :: rest => paraNode p :: spacerNode :: interleaveSpacers rest

/-- Lines 302-347: the `content` array of the resulting document. -/
def contentNodes (text : String) : List JVal :=
  let parts := splitSigParts text
  let paragraphs0 := mainParagraphs parts.1
  -- Lines 308-311: backfill the raw text when both lists are empty.
  let paragraphs :=
    if paragraphs0.length == 0 && parts.2.length == 0 then [text] else paragraphs0
  interleaveSpacers paragraphs ++
    (if 0 < parts.2.length then
       (if 0 < paragraphs.length then [spacerNode] else []) ++ parts.2.map paraNode
     else [])

/-- Embedding of `createAIJsonContent` (utils.ts lines 249-353), the
spec's `splitSignature`. -/
def createAIJsonContent (text : String) : JVal :=
  .obj [("type", .str "doc"), ("content", .arr (contentNodes text))]

/-- The character list of `n` repetitions of `"<p></p>"`. -/
def pBlocksData : Nat → List Char
  | 0 => []
  | n + 1 => '<' :: 'p' :: '>' :: '<' :: '/' :: 'p' :: '>' :: pBlocksData n

/-- `n` repetitions of `"<p></p>"`, the rendering of `n` childless
paragraph nodes. -/
def pBlocks (n : Nat) : String := ⟨pBlocksData n⟩

/-- Mode of the balanced-tag scanner: running text, inside an opening tag
(characters accumulated in reverse), or inside a closing tag. -/
inductive ScanMode where
  | text
  | openTag (acc : List Char)
  | closeTag (acc : List Char)

/-- Element name of a tag whose inner characters were accumulated in
reverse: everything up to the first space, so `a href="x"` names `a`. -/
def tagName (acc : List Char) : String := ⟨acc.reverse.takeWhile (fun c => c != ' ')⟩

/-- Balanced-tag scanner over the §4.1 tag language: pushes element names
at opening tags, pops at matching closing tags, ignores self-closing tags
(ending in `/>`); `none` on an empty, unterminated, or mismatched tag. -/
def scanTags : List Char → ScanMode → List String → Option (List String)
  | [], .text, stack => some stack
  | [], .openTag _, _ => none
  | [], .closeTag _, _ => none
  | c :: rest, .text, stack =>
    if c == '<' then scanTags rest (.openTag []) stack
    else scanTags rest .text stack
  | c :: rest, .openTag acc, stack =>
    if c == '/' && acc.isEmpty then scanTags rest (.closeTag []) stack
    else if c == '>' then
      match acc with
      | [] => none
      | lastC :: _ =>
        if lastC == '/' then scanTags rest .text stack
        else scanTags rest .text (tagName acc :: stack)
    else scanTags rest (.openTag (c :: acc)) stack
  | c :: rest, .closeTag acc, stack =>
    if c == '>' then
      match stack with
      | [] => none
      | top :: stack' => if tagName acc == top then scanTags rest .text stack' else none
    else scanTags rest (.closeTag (c :: acc)) stack

/-- A string is balanced when the scan ends in text mode with an empty
stack: every opened tag is closed, in proper nesting order. -/
def balancedTags (s : String) : Bool := scanTags s.data .text [] == some []

/-- Wrap a string in an HTML tag when the flag is set. -/
def wrapIf (flag : Bool) (tag s : String) : String :=
  if flag then "<" ++ tag ++ ">" ++ s ++ "</" ++ tag ++ ">" else s

/-- A text whose last three lines hold a long period-terminated line
between two short ones: the fallback pass selects a non-contiguous pair. -/
def c3Input : String := "First line\nShort one\nIt ends with a period.\nBob"

/-- Two strings with the same character list are equal. -/
theorem strExt {a b : String} (h : a.data = b.data) : a = b := by
  cases a
  cases b
  exact congrArg String.mk h

/-- `String.join` peels its head summand off. -/
theorem strJoinCons (a : String) (l : List String) :
    String.join (a :: l) = a ++ String.join l := by
  apply strExt
  simp [String.data_join]

/-- A childless paragraph node renders to `<p></p>` whatever text it
carries under `content`: the renderer only recurses into `children`. -/
theorem render_paraNode (s : String) : convertJSONToHTML (paraNode s) = some "<p></p>" := rfl

/-- The spacer paragraph renders to `<p></p>`. -/
theorem render_spacerNode : convertJSONToHTML spacerNode = some "<p></p>" := rfl

/-- Every node `interleaveSpacers` emits is a spacer or a `paraNode`. -/
theorem interleaveSpacers_shape :
    ∀ (l : List String) (v : JVal), v ∈ interleaveSpacers l →
      v = spacerNode ∨ ∃ s, v = paraNode s
  | [], v, hv => by simp [interleaveSpacers] at hv
  | [p], v, hv => by
    simp [interleaveSpacers] at hv
    exact Or.inr ⟨p, hv⟩
  | p :: q :: rest, v, hv => by
    simp only [interleaveSpacers, List.mem_cons] at hv
    rcases hv with h | h | h
    · exact Or.inr ⟨p, h⟩
    · exact Or.inl h
    · exact interleaveSpacers_shape (q :: rest) v h

/-- Membership in a conditional list with an empty alternative. -/
theorem mem_ite_nil {α : Type} {p : Prop} [Decidable p] {l : List α} {v : α}
    (h : v ∈ (if p then l else [])) : v ∈ l := by
  split at h
  · exact h
  · simp at h

/-- Every node in the `content` array built for any input text is a
spacer or a `paraNode`. -/
theorem contentNodes_shape (t : String) :
    ∀ v ∈ contentNodes t, v = spacerNode ∨ ∃ s, v = paraNode s := by
  intro v hv
  unfold contentNodes at hv
  rcases List.mem_append.mp hv with h | h
  · exact interleaveSpacers_shape _ v h
  · rcases List.mem_append.mp (mem_ite_nil h) with h2 | h2
    · have h3 := mem_ite_nil h2
      simp at h3
      exact Or.inl h3
    · rcases List.mem_map.mp h2 with ⟨s, _, hs⟩
      exact Or.inr ⟨s, hs.symm⟩

/-- An array all of whose elements render to `<p></p>` renders to that
many copies of `<p></p>`. -/
theorem convertArr_pblocks :
    ∀ (l : List JVal), (∀ v ∈ l, convertJSONToHTML v = some "<p></p>") →
      (convertArr l).map String.join = some (pBlocks l.length)
  | [], _ => rfl
  | x :: xs, h => by
    have hx : convertJSONToHTML x = some "<p></p>" := h x (List.mem_cons_self x xs)
    have ih := convertArr_pblocks xs (fun v hv => h v (List.mem_cons_of_mem x hv))
    rcases hax : convertArr xs with _ | ss
    · rw [hax] at ih
      simp at ih
    · rw [hax] at ih
      simp only [Option.map_some'] at ih
      have hjoin : String.join ss = pBlocks xs.length := Option.some.inj ih
      have hcons : convertArr (x :: xs) = some ("<p></p>" :: ss) := by
        simp [convertArr, hx, hax]
      rw [hcons, Option.map_some', strJoinCons, hjoin]
      rfl

/-- Rendering a whole document whose content nodes all render to
`<p></p>`: the root `doc` object has no recognized type and no
`children`, so `Object.values` renders the string `"doc"` and then the
content array. -/
theorem render_docNode (content : List JVal)
    (h : ∀ v ∈ content, convertJSONToHTML v = some "<p></p>") :
    convertJSONToHTML (.obj [("type", .str "doc"), ("content", .arr content)]) =
      some ("doc" ++ pBlocks content.length) := by
  have harr : convertJSONToHTML (.arr content) = some (pBlocks content.length) :=
    convertArr_pblocks content h
  have hvals : convertValues [("type", .str "doc"), ("content", .arr content)] =
      some ["doc", pBlocks content.length] := by
    simp [convertValues, harr]
    rfl
  show (convertValues [("type", .str "doc"), ("content", .arr content)]).map String.join =
    some ("doc" ++ pBlocks content.length)
  rw [hvals]
  rfl

/-- The rendering of `createAIJsonContent`'s output, for every input:
the literal `doc` followed by one `<p></p>` per content node. -/
theorem render_createAIJsonContent (t : String) :
    convertJSONToHTML (createAIJsonContent t) =
      some ("doc" ++ pBlocks (contentNodes t).length) := by
  apply render_docNode
  intro v hv
  rcases contentNodes_shape t v hv with h | ⟨s, h⟩
  · rw [h]
    exact render_spacerNode
  · rw [h]
    exact render_paraNode s

/-- Scanning any number of `<p></p>` blocks starting and ending in text
mode leaves an empty stack: each block pushes `"p"` and pops it back. -/
theorem scanTags_pblocks : ∀ n : Nat, scanTags (pBlocksData n) .text [] = some []
  | 0 => rfl
  | n + 1 => scanTags_pblocks n

/-- The literal `doc` followed by any number of `<p></p>` blocks is
balanced for the scanner. -/
theorem balancedTags_doc_pblocks (n : Nat) : balancedTags ("doc" ++ pBlocks n) = true := by
  show (scanTags ('d' :: 'o' :: 'c' :: pBlocksData n) .text [] == some []) = true
  show (scanTags (pBlocksData n) .text [] == some []) = true
  rw [scanTags_pblocks n]
  rfl

/-- A list prefix is no longer than the list. -/
theorem isPrefixOf_length_le :
    ∀ (a b : List Char), a.isPrefixOf b = true → a.length ≤ b.length
  | [], _, _ => Nat.zero_le _
  | _ :: _, [], h => by simp [List.isPrefixOf] at h
  | a :: as, b :: bs, h => by
    simp only [List.isPrefixOf, Bool.and_eq_true] at h
    exact Nat.succ_le_succ (isPrefixOf_length_le as bs h.2)

/-- Every list is a prefix of itself. -/
theorem isPrefixOf_self : ∀ (l : List Char), l.isPrefixOf l = true
  | [] => rfl
  | a :: as => by
    simp only [List.isPrefixOf, Bool.and_eq_true, beq_self_eq_true, true_and]
    exact isPrefixOf_self as

/-- A filter over an initial range that holds only at 0 keeps exactly 0. -/
theorem range_filter_zero (p : Nat → Bool) (h0 : p 0 = true)
    (h1 : ∀ k, 0 < k → p k = false) :
    ∀ n : Nat, (List.range (n + 1)).filter p = [0]
  | 0 => by
    rw [List.range_succ, List.range_zero]
    simp [List.filter, h0]
  | n + 1 => by
    rw [List.range_succ, List.filter_append, range_filter_zero p h0 h1 n]
    simp [h1 (n + 1) (Nat.succ_pos n)]

/-- `text.lastIndexOf(text)` is 0 for a non-empty text: the only
occurrence of a string in itself starts at index 0. -/
theorem jsLastIndexOf_self (l : List Char) (hne : l ≠ []) :
    jsLastIndexOf l l = some 0 := by
  unfold jsLastIndexOf
  have hlen : 0 < l.length := List.length_pos.mpr hne
  have h0 : l.isPrefixOf (l.drop 0) = true := isPrefixOf_self l
  have h1 : ∀ k, 0 < k → l.isPrefixOf (l.drop k) = false := by
    intro k hk
    cases hpk : l.isPrefixOf (l.drop k) with
    | false => rfl
    | true =>
      have hle := isPrefixOf_length_le _ _ hpk
      rw [List.length_drop] at hle
      omega
  cases hl : l.length with
  | zero => omega
  | succ m =>
    rw [range_filter_zero _ h0 h1 (m + 1)]
    rfl

/-- C1 (counterexample): with both `bold` and `code` truthy the renderer
returns `<code><strong>hi</strong></code>` — code outermost — not the
claimed `<strong><code>hi</code></strong>`: each later flag's tag wraps
around the string built so far. -/
theorem c1_counterexample :
    convertJSONToHTML (.obj [("type", .str "text"), ("text", .str "hi"),
        ("bold", .bool true), ("code", .bool true)]) =
      some "<code><strong>hi</strong></code>" ∧
    convertJSONToHTML (.obj [("type", .str "text"), ("text", .str "hi"),
        ("bold", .bool true), ("code", .bool true)]) ≠
      some "<strong><code>hi</code></strong>" := by
  constructor
  · rfl
  · decide

/-- C1 (amended): for every text node the formatting wraps are applied
left-to-right in the order bold, italic, underline, code, each truthy
flag wrapping AROUND the result so far, so with several flags set the
nesting is code outermost and bold innermost. -/
theorem c1_formatting_order (s : String) (b i u cd : Bool) :
    convertJSONToHTML (.obj [("type", .str "text"), ("text", .str s), ("bold", .bool b),
      ("italic", .bool i), ("underline", .bool u), ("code", .bool cd)]) =
    some (wrapIf cd "code" (wrapIf u "u" (wrapIf i "em" (wrapIf b "strong" s)))) := by
  by_cases h : s = ""
  · subst h
    cases b <;> cases i <;> cases u <;> cases cd <;> rfl
  · have hs : (s != "") = true := by simp [h]
    cases b <;> cases i <;> cases u <;> cases cd <;>
      simp [convertJSONToHTML, getField, jsTruthy, jsToString, wrapIf, hs] <;>
      (apply strExt; simp)

/-- C2 (counterexample): already for the empty input the rendered output
is `"doc<p></p>"`, which is not a concatenation of `<p></p>` tags alone:
the doc root leaks its `type` string through the property-values
fallback of the renderer. -/
theorem c2_counterexample :
    ¬ ∃ n : Nat, convertJSONToHTML (createAIJsonContent "") = some (pBlocks n) := by
  rintro ⟨n, h⟩
  have h2 : some "doc<p></p>" = some (pBlocks n) := by
    rw [← h]
    rfl
  have h3 : "doc<p></p>" = pBlocks n := Option.some.inj h2
  cases n with
  | zero => exact absurd h3 (by decide)
  | succ m =>
    have h4 := congrArg (fun s : String => s.data.head?) h3
    injection h4 with h5
    exact absurd h5 (by decide)

/-- C2 (amended): for every input text, rendering the splitter's output
yields the string `doc` followed by exactly one empty `<p></p>` per
content node and none of the input's paragraph text: the splitter stores
children under `content` while the renderer recurses only into
`children`, so every paragraph renders as `<p></p>`, and the `doc` root
falls through to the property-value concatenation, which renders its
`type` string first. -/
theorem c2_render_shape (t : String) :
    convertJSONToHTML (createAIJsonContent t) =
      some ("doc" ++ pBlocks (contentNodes t).length) :=
  render_createAIJsonContent t

/-- C3 (counterexample): on `c3Input` the fallback pass selects the
non-contiguous qualifying pair out of the last three lines — the actual
trailing run of length two would be the last two lines — and the
disqualified middle line `"It ends with a period."` survives neither in
the body nor in the signature, while `"Short one"` is duplicated into
both. -/
theorem c3_counterexample :
    (splitSigParts c3Input).2 = ["Short one", "Bob"] ∧
    (splitNl c3Input).drop ((splitNl c3Input).length - 2) = ["It ends with a period.", "Bob"] ∧
    "It ends with a period." ∉ splitNl (splitSigParts c3Input).1 ∧
    "It ends with a period." ∉ (splitSigParts c3Input).2 ∧
    (splitSigParts c3Input).1 = "First line\nShort one" := by
  decide

/-- C3 (amended): when the pattern pass finds nothing, the text splits on
newline runs and, if more than one line exists, the signature is the
FILTER of the last up-to-3 lines by the qualification test (trimmed
length under 60, trimmed line not ending in `?` or `.`) — qualifying
lines need not be contiguous — and the main body is the first `n - k`
lines rejoined (k the number of qualifying lines), so a disqualified
line lying between qualifying ones is dropped from both parts and a
qualifying line of the kept prefix is duplicated into the signature. -/
theorem c3_fallback_filter (t : String)
    (h1 : findSignOff t = none)
    (h2 : 1 < (splitNl t).length)
    (h3 : ((splitNl t).drop ((splitNl t).length - 3)).filter sigLineQualifies ≠ []) :
    splitSigParts t =
      (jsTrim (String.intercalate "\n"
         ((splitNl t).take ((splitNl t).length -
            (((splitNl t).drop ((splitNl t).length - 3)).filter sigLineQualifies).length))),
       ((splitNl t).drop ((splitNl t).length - 3)).filter sigLineQualifies) := by
  unfold splitSigParts patternPass
  rw [h1]
  unfold fallbackPass
  simp [h2, List.length_pos.mpr h3]

/-- C3 (witness): the amended description instantiated at `c3Input`. -/
theorem c3_fallback_filter_witness :
    (findSignOff c3Input = none ∧ 1 < (splitNl c3Input).length ∧
      ((splitNl c3Input).drop ((splitNl c3Input).length - 3)).filter sigLineQualifies ≠ []) ∧
    splitSigParts c3Input =
      (jsTrim (String.intercalate "\n"
         ((splitNl c3Input).take ((splitNl c3Input).length -
            (((splitNl c3Input).drop ((splitNl c3Input).length - 3)).filter
              sigLineQualifies).length))),
       ((splitNl c3Input).drop ((splitNl c3Input).length - 3)).filter sigLineQualifies) :=
  ⟨⟨by decide, by decide, by decide⟩,
   c3_fallback_filter c3Input (by decide) (by decide) (by decide)⟩

/-- C4: a sign-off match whose span starts at index 0 is not honored:
the pattern pass returns the whole text as main content with no
signature lines, and the final state is exactly what the fallback pass
makes of that. -/
theorem c4_match_at_zero (t : String) (h : findSignOff t = some 0) :
    patternPass t = (t, []) ∧ splitSigParts t = fallbackPass t (t, []) := by
  have hne : t.data ≠ [] := by
    intro h0
    have hnone : findSignOff t = none := by
      unfold findSignOff
      rw [h0]
      decide
    rw [h] at hnone
    exact Option.noConfusion hnone
  have hmain : patternPass t = (t, []) := by
    unfold patternPass
    rw [h]
    simp [jsLastIndexOf_self t.data hne]
  refine ⟨hmain, ?_⟩
  unfold splitSigParts
  rw [hmain]

/-- C4 (witness): `"Thanks\nBob"` matches the sign-off pattern at index
0 (phrase `Thanks`, newline, name `Bob`) and is left whole. -/
theorem c4_match_at_zero_witness :
    findSignOff "Thanks\nBob" = some 0 ∧
    (patternPass "Thanks\nBob" = ("Thanks\nBob", []) ∧
      splitSigParts "Thanks\nBob" = fallbackPass "Thanks\nBob" ("Thanks\nBob", [])) :=
  ⟨by decide, c4_match_at_zero "Thanks\nBob" (by decide)⟩

/-- C5 (counterexample): `render(0)` and `render(false)` do not return
the string representations `"0"` and `"false"`: both values are falsy,
so the `if (!json) return ''` guard returns the empty string first. -/
theorem c5_counterexample :
    convertJSONToHTML (.num 0) ≠ some (toString (0 : Int)) ∧
    convertJSONToHTML (.bool false) ≠ some (cond false "true" "false") ∧
    convertJSONToHTML (.num 0) = some "" ∧
    convertJSONToHTML (.bool false) = some "" := by
  refine ⟨?_, ?_, rfl, rfl⟩ <;> decide

/-- C5 (amended): every nonzero number renders to its decimal string
representation and `true` renders to `"true"`, while the falsy `0` and
`false` render to the empty string. -/
theorem c5_truthy_primitives (n : Int) (b : Bool) (hn : n ≠ 0) :
    convertJSONToHTML (.num n) = some (toString n) ∧
    convertJSONToHTML (.bool b) = some (if b then "true" else "") ∧
    convertJSONToHTML (.num 0) = some "" ∧
    convertJSONToHTML (.bool false) = some "" := by
  refine ⟨?_, ?_, rfl, rfl⟩
  · have hbne : (n != 0) = true := by simp [hn]
    show (if (!(n != 0)) = true then some "" else some (toString n)) = some (toString n)
    rw [hbne]
    rfl
  · cases b <;> rfl

/-- C5 (witness): the amended statement at `n = 7`, `b = true`. -/
theorem c5_truthy_primitives_witness :
    (7 : Int) ≠ 0 ∧
    (convertJSONToHTML (.num 7) = some (toString (7 : Int)) ∧
      convertJSONToHTML (.bool true) = some (if true then "true" else "") ∧
      convertJSONToHTML (.num 0) = some "" ∧
      convertJSONToHTML (.bool false) = some "") :=
  ⟨by decide, c5_truthy_primitives 7 true (by decide)⟩

/-- C6: the worked example — `"Hello there.\n\nBest regards,\nJane Doe"`
splits into the body paragraph, one spacer, and the two signature lines,
in that order. -/
theorem c6_example :
    createAIJsonContent "Hello there.\n\nBest regards,\nJane Doe" =
      .obj [("type", .str "doc"), ("content", .arr
        [paraNode "Hello there.", spacerNode,
         paraNode "Best regards,", paraNode "Jane Doe"])] := rfl

/-- C7: when the body yields no paragraphs and no signature was
detected, the original raw text becomes the single paragraph of the
resulting document. -/
theorem c7_backfill (t : String)
    (h1 : (splitSigParts t).2 = [])
    (h2 : mainParagraphs (splitSigParts t).1 = []) :
    createAIJsonContent t =
      .obj [("type", .str "doc"), ("content", .arr [paraNode t])] := by
  unfold createAIJsonContent contentNodes
  simp [h1, h2, interleaveSpacers]

/-- C7 (witness): for the empty string both lists are empty and the
result is a single empty paragraph. -/
theorem c7_backfill_witness :
    ((splitSigParts "").2 = [] ∧ mainParagraphs (splitSigParts "").1 = []) ∧
    createAIJsonContent "" =
      .obj [("type", .str "doc"), ("content", .arr [paraNode ""])] :=
  ⟨⟨by decide, by decide⟩, c7_backfill "" (by decide) (by decide)⟩

/-- C8: the claimed equalities for `null`, `undefined` and `""` hold,
but the renderer is NOT total on malformed objects: an object whose
`type` is the number 5 reaches `json.type?.startsWith('heading-')`,
whose optional chaining guards only nullish values, and throws
`TypeError: json.type.startsWith is not a function` (modelled `none`). -/
theorem c8_malformed_type_throws :
    convertJSONToHTML .null = some "" ∧
    convertJSONToHTML .undefined = some "" ∧
    convertJSONToHTML (.str "") = some "" ∧
    convertJSONToHTML (.obj [("type", .num 5)]) = none :=
  ⟨rfl, rfl, rfl, rfl⟩

/-- C9: rendering the splitter's output never throws and is balanced:
it is the text `doc` followed by matched `<p></p>` pairs. -/
theorem c9_render_balanced (t : String) :
    ∃ out, convertJSONToHTML (createAIJsonContent t) = some out ∧
      balancedTags out = true :=
  ⟨"doc" ++ pBlocks (contentNodes t).length, render_createAIJsonContent t,
    balancedTags_doc_pblocks (contentNodes t).length⟩

/-- C10 (counterexample): a falsy `children` value is NOT forwarded: the
object `{children: "", extra: "x"}` skips the truthiness-guarded
children branch and falls to the property-value concatenation, rendering
`"x"`, whereas `render("")` is `""`. -/
theorem c10_counterexample :
    convertJSONToHTML (.obj [("children", .str ""), ("extra", .str "x")]) ≠
      convertJSONToHTML (.str "") ∧
    convertJSONToHTML (.obj [("children", .str ""), ("extra", .str "x")]) = some "x" := by
  refine ⟨?_, rfl⟩
  decide

/-- C10 (amended): for an object with no recognized type, a TRUTHY
`children` value is rendered alone, every other field dropped; falsy
`children` instead falls through to the concatenation of all property
values. -/
theorem c10_truthy_children (c v : JVal) (h : jsTruthy c = true) :
    convertJSONToHTML (.obj [("children", c), ("extra", v)]) = convertJSONToHTML c := by
  show (if (jsTruthy (getField [("children", c), ("extra", v)] "children")) = true
      then childrenOf [("children", c), ("extra", v)]
      else (convertValues [("children", c), ("extra", v)]).map String.join) =
    convertJSONToHTML c
  rw [show getField [("children", c), ("extra", v)] "children" = c from rfl, h]
  rfl

/-- C10 (witness): the amended statement at `children = "y"`,
`extra = 3`. -/
theorem c10_truthy_children_witness :
    jsTruthy (.str "y") = true ∧
    convertJSONToHTML (.obj [("children", .str "y"), ("extra", .num 3)]) =
      convertJSONToHTML (.str "y") :=
  ⟨by decide, c10_truthy_children (.str "y") (.num 3) (by decide)⟩
